import Mathlib

/-!
Verification of the env-saver server (src/env-saver/src/main.rs) and its
named-pipe session library (src/env-saver/lib-named-pipe-manager/src/lib.rs).
Rust strings are modelled as `List Char`; `HashMap<String, String>` as an
association list with replace-on-insert (`envInsert`); a Rust panic
(`Option::unwrap` on `None`, `collect_tuple().unwrap()` on a bad record)
as the `none` of an `Option`-valued result.
-/

namespace EnvSaver

/-- A Rust `String`, modelled as its character list. -/
abbrev Str := List Char

/-- `HashMap<String, String>`, modelled as an association list. -/
abbrev EnvMap := List (Str × Str)

/-- main.rs `enum Command`. -/
inductive Command where
  | SaveEnv
  | ReadEnv
  | OldEnv
deriving DecidableEq

/-- main.rs `struct EnvironmentData`. -/
structure EnvironmentData where
  command : Option Command
  exit_code : Option Nat
  env_vars : Option Str
deriving DecidableEq

/-- `HashMap::insert`: replaces the value of an existing key, else appends. -/
def envInsert (m : EnvMap) (k v : Str) : EnvMap :=
  match m with
  | [] => [(k, v)]
  | (k', v') :: rest => if k' = k then (k, v) :: rest else (k', v') :: envInsert rest k v

/-- `HashMap::get`. -/
def envLookup (m : EnvMap) (k : Str) : Option Str :=
  match m with
  | [] => none
  | (k', v') :: rest => if k' = k then some v' else envLookup rest k

/-- `HashMap::contains_key`. -/
def envContains (m : EnvMap) (k : Str) : Bool :=
  (envLookup m k).isSome

/-- Rust `str::split("\r\n")`: every (non-overlapping) occurrence of the
two-byte separator splits the string; empty pieces are kept. -/
def splitCRLF : Str → List Str
  | [] => [[]]
  | [c] => [[c]]
  | c₁ :: c₂ :: rest =>
    if c₁ = '\r' ∧ c₂ = '\n' then
      [] :: splitCRLF rest
    else
      match splitCRLF (c₂ :: rest) with
      | [] => [[c₁]]
      | h :: t => (c₁ :: h) :: t

/-- Rust `line.splitn(2, "=").collect_tuple::<(_, _)>()`: `some (before, after)`
split at the first `=`, `none` when the line holds no `=`. -/
def splitFirstEq : Str → Option (Str × Str)
  | [] => none
  | c :: rest =>
    if c = '=' then some ([], rest)
    else (splitFirstEq rest).map fun p => (c :: p.1, p.2)

/-- The parsing loop shared by the `SaveEnv` and `OldEnv` arms of main.rs:
each non-empty record is split at its first `=` and inserted; a non-empty
record with no `=` panics (`collect_tuple().unwrap()`), modelled as `none`. -/
def parseLines : List Str → EnvMap → Option EnvMap
  | [], m => some m
  | line :: rest, m =>
    if line.length ≠ 0 then
      match splitFirstEq line with
      | none => none
      | some (k, v) => parseLines rest (envInsert m k v)
    else
      parseLines rest m

/-- Parse a raw environment block: split on `\r\n`, then fold `parseLines`
over the records starting from the empty map (main.rs lines 118–125, 151–158). -/
def parseEnvBlock (ev : Str) : Option EnvMap :=
  parseLines (splitCRLF ev) []

/-- Rust `char::is_whitespace`: the Unicode White_Space property — tab
through carriage return (U+0009–U+000D), space, next line (U+0085), no-break
space (U+00A0), Ogham space mark (U+1680), the en-quad–hair-space range
(U+2000–U+200A), line and paragraph separators (U+2028, U+2029), narrow
no-break space (U+202F), medium mathematical space (U+205F), and ideographic
space (U+3000). -/
def rustIsWhitespace (c : Char) : Bool :=
  (0x09 ≤ c.toNat && c.toNat ≤ 0x0D) || c.toNat = 0x20 || c.toNat = 0x85 ||
  c.toNat = 0xA0 || c.toNat = 0x1680 ||
  (0x2000 ≤ c.toNat && c.toNat ≤ 0x200A) ||
  c.toNat = 0x2028 || c.toNat = 0x2029 || c.toNat = 0x202F ||
  c.toNat = 0x205F || c.toNat = 0x3000

/-- Rust `str::trim_end`: remove trailing Unicode-whitespace characters. -/
def trimRight (l : Str) : Str :=
  (l.reverse.dropWhile rustIsWhitespace).reverse

/-- The diff condition of main.rs lines 129–138: a pair of the new map is
emitted iff its key is absent from the old map, or present with a different
value (`old_owned.get(k).unwrap() != v`). -/
def diffOk (old : EnvMap) (k v : Str) : Bool :=
  if !(envContains old k) then true
  else if envLookup old k ≠ some v then true
  else false

/-- The environment diff: the pairs of the new map passing `diffOk`. -/
def diffEnv (old new : EnvMap) : List (Str × Str) :=
  new.filter fun kv => diffOk old kv.1 kv.2

/-- The diff serialization of main.rs lines 127–140: each emitted pair is
appended as `KEY=VALUE\n`, and the result is `trim_end`ed. -/
def serializeDiff (pairs : List (Str × Str)) : Str :=
  trimRight (pairs.foldl (fun buf kv => buf ++ kv.1 ++ ['='] ++ kv.2 ++ ['\n']) [])

/-- The server's per-connection mutable state: `server_data` and `old_env`
of main.rs lines 91–97. -/
structure ServerState where
  server_data : EnvironmentData
  old_env : Option EnvMap
deriving DecidableEq

/-- One exchange of the server loop (main.rs lines 107–162): the `match` on
`data.command.unwrap()`. Returns `none` on any panic (`unwrap` of an absent
field, a record with no `=`, or a missing baseline), otherwise the new state
and the response written back (`some` only in the `ReadEnv` arm). -/
def handleExchange (data : EnvironmentData) (s : ServerState) :
    Option (ServerState × Option EnvironmentData) :=
  match data.command with
  | none => none
  | some Command.ReadEnv =>
    some ({ s with server_data := { s.server_data with env_vars := none, exit_code := none } },
          some s.server_data)
  | some Command.SaveEnv =>
    match data.env_vars with
    | none => none
    | some ev =>
      match parseEnvBlock ev with
      | none => none
      | some new_env =>
        match s.old_env with
        | none => none
        | some old_owned =>
          match data.exit_code with
          | none => none
          | some ec =>
            some ({ server_data :=
                      { command := s.server_data.command,
                        exit_code := some ec,
                        env_vars := some (serializeDiff (diffEnv old_owned new_env)) },
                    old_env := none }, none)
  | some Command.OldEnv =>
    match data.env_vars with
    | none => none
    | some ev =>
      match parseEnvBlock ev with
      | none => none
      | some old_vars => some ({ s with old_env := some old_vars }, none)

/-- The `ReadEnv` request a pulling client sends (main.rs lines 170–191). -/
def pullMsg : EnvironmentData :=
  { command := some Command.ReadEnv, exit_code := none, env_vars := none }

end EnvSaver

namespace EnvSaver

/-- C1: the environment diff computed by the push handler contains exactly the
pairs of the new map whose key is absent from the baseline or mapped there to
a different value; a pair whose value matches the baseline is excluded, and
every emitted pair comes from the new map (so deleted keys never appear). -/
theorem diff_exact (B E : EnvMap) (k v : Str) :
    (k, v) ∈ diffEnv B E ↔ ((k, v) ∈ E ∧ envLookup B k ≠ some v) := by
  unfold diffEnv diffOk envContains
  rw [List.mem_filter]
  cases h : envLookup B k <;> simp [h]

/-- C2: pull is a destructive read. After a successful push, the first
`ReadEnv` exchange returns the stored server data — whose exit code is the
pushed one and whose environment block is present — and a second consecutive
`ReadEnv` exchange returns a response with both exit code and environment
block absent. -/
theorem pull_destructive (s s1 : ServerState) (req : EnvironmentData)
    (hcmd : req.command = some Command.SaveEnv)
    (hpush : handleExchange req s = some (s1, none)) :
    ∃ s2 s3 r2,
      handleExchange pullMsg s1 = some (s2, some s1.server_data) ∧
      s1.server_data.exit_code = req.exit_code ∧
      s1.server_data.env_vars.isSome = true ∧
      handleExchange pullMsg s2 = some (s3, some r2) ∧
      r2.exit_code = none ∧ r2.env_vars = none := by
  obtain ⟨c, ec, ev⟩ := req
  simp only at hcmd
  subst hcmd
  cases ev with
  | none => simp [handleExchange] at hpush
  | some ev =>
    cases hp : parseEnvBlock ev with
    | none => simp [handleExchange, hp] at hpush
    | some new_env =>
      cases ho : s.old_env with
      | none => simp [handleExchange, hp, ho] at hpush
      | some old_owned =>
        cases ec with
        | none => simp [handleExchange, hp, ho] at hpush
        | some ec =>
          simp only [handleExchange, hp, ho, Option.some.injEq, Prod.mk.injEq,
            and_true] at hpush
          subst hpush
          exact ⟨⟨⟨s.server_data.command, none, none⟩, none⟩,
                 ⟨⟨s.server_data.command, none, none⟩, none⟩,
                 ⟨s.server_data.command, none, none⟩,
                 rfl, rfl, rfl, rfl, rfl, rfl⟩

/-- C2 witness: a concrete push of `B=2` with exit code 3 against baseline
`A=1`, followed by two pulls. -/
theorem pull_destructive_witness :
    ∃ s2 s3 r2,
      handleExchange pullMsg
          ⟨⟨none, some 3, some ['B', '=', '2']⟩, none⟩ =
        some (s2, some (⟨⟨none, some 3, some ['B', '=', '2']⟩, none⟩ : ServerState).server_data) ∧
      (⟨⟨none, some 3, some ['B', '=', '2']⟩, none⟩ : ServerState).server_data.exit_code =
        (⟨some Command.SaveEnv, some 3, some ['B', '=', '2']⟩ : EnvironmentData).exit_code ∧
      (⟨⟨none, some 3, some ['B', '=', '2']⟩, none⟩ :
          ServerState).server_data.env_vars.isSome = true ∧
      handleExchange pullMsg s2 = some (s3, some r2) ∧
      r2.exit_code = none ∧ r2.env_vars = none :=
  pull_destructive ⟨⟨none, none, none⟩, some [(['A'], ['1'])]⟩ _
    ⟨some Command.SaveEnv, some 3, some ['B', '=', '2']⟩ rfl (by decide)

/-- C3 counterexample: a push handled while `old_env` is `None` panics at
`old_env.take().unwrap()` (main.rs line 128): the exchange ends in a process
abort, not a reported `MissingBaseline` error, so the server does not remain
serviceable. -/
theorem push_no_baseline_cx :
    handleExchange ⟨some Command.SaveEnv, some 0, some ['A', '=', '1']⟩
      ⟨⟨none, none, none⟩, none⟩ = none := by decide

/-- C3 amended: every `SaveEnv` exchange handled while no baseline is set
makes the handler panic (the `unwrap` of the absent `old_env` or of an earlier
absent field), aborting the process; no `MissingBaseline` error value exists
in the code. -/
theorem push_no_baseline_panics (s : ServerState) (h : s.old_env = none)
    (d : EnvironmentData) (hc : d.command = some Command.SaveEnv) :
    handleExchange d s = none := by
  obtain ⟨c, ec, ev⟩ := d
  simp only at hc
  subst hc
  cases ev with
  | none => rfl
  | some ev =>
    simp only [handleExchange]
    cases parseEnvBlock ev <;> simp [h]

/-- C3 witness: the amended theorem applied to a fresh server state and a
push request whose block is empty. -/
theorem push_no_baseline_panics_witness :
    handleExchange ⟨some Command.SaveEnv, some 1, some []⟩
      ⟨⟨none, none, none⟩, none⟩ = none :=
  push_no_baseline_panics ⟨⟨none, none, none⟩, none⟩ rfl
    ⟨some Command.SaveEnv, some 1, some []⟩ rfl

/-- C7 counterexample: a decoded message with no command discriminator
(serde fills the missing `Option` field with `None`, so decoding succeeds and
no `MalformedMessage` is raised) makes the server panic at
`data.command.unwrap()` (main.rs line 108), aborting the process. -/
theorem missing_command_cx :
    handleExchange ⟨none, none, none⟩ ⟨⟨none, none, none⟩, none⟩ = none := by decide

/-- C7 amended: every message whose command discriminator is absent decodes
without a `MalformedMessage` error (the field is an `Option` and becomes
`None`), and its handling panics on `unwrap`, aborting the server process,
whatever the server state and the other fields. -/
theorem missing_command_aborts (d : EnvironmentData) (h : d.command = none)
    (s : ServerState) : handleExchange d s = none := by
  obtain ⟨c, ec, ev⟩ := d
  simp only at h
  subst h
  rfl

/-- C7 witness: the amended theorem applied to a message carrying only an
exit code and an empty block. -/
theorem missing_command_aborts_witness :
    handleExchange ⟨none, some 1, some []⟩ ⟨⟨none, none, none⟩, some []⟩ = none :=
  missing_command_aborts ⟨none, some 1, some []⟩ rfl ⟨⟨none, none, none⟩, some []⟩

/-- A line without `=` makes `splitFirstEq` return `none`. -/
theorem splitFirstEq_of_not_mem (l : Str) (h : '=' ∉ l) : splitFirstEq l = none := by
  induction l with
  | nil => rfl
  | cons c t ih =>
    have h' : ¬ ('=' = c) ∧ '=' ∉ t := by simpa [not_or] using h
    simp only [splitFirstEq]
    rw [if_neg (fun hc => h'.1 hc.symm), ih h'.2]
    rfl

/-- A non-empty record with no `=` anywhere in the record list makes the
parsing fold panic, whatever map has been accumulated. -/
theorem parseLines_of_bad_line (lines : List Str) (line : Str) (hm : line ∈ lines)
    (hne : line ≠ []) (hsp : splitFirstEq line = none) :
    ∀ m : EnvMap, parseLines lines m = none := by
  induction lines with
  | nil => cases hm
  | cons h t ih =>
    intro m
    rcases List.mem_cons.mp hm with rfl | hmem
    · have hlen : line.length ≠ 0 := by simpa using hne
      simp [parseLines, hlen, hsp]
    · by_cases hl : h.length ≠ 0
      · simp only [parseLines, if_pos hl]
        cases hs : splitFirstEq h with
        | none => rfl
        | some p =>
          obtain ⟨k, v⟩ := p
          exact ih hmem (envInsert m k v)
      · simp only [parseLines, if_neg hl]
        exact ih hmem m

/-- Splitting on `\r\n` is the identity (one piece) on a string without `\r`. -/
theorem splitCRLF_of_no_cr (l : Str) (h : '\r' ∉ l) : splitCRLF l = [l] := by
  induction l with
  | nil => rfl
  | cons c rest ih =>
    cases rest with
    | nil => rfl
    | cons c₂ rest₂ =>
      have hc : c ≠ '\r' := fun hc => h (hc ▸ List.mem_cons_self c (c₂ :: rest₂))
      have ht : '\r' ∉ c₂ :: rest₂ := fun hmem => h (List.mem_cons_of_mem c hmem)
      simp only [splitCRLF]
      rw [if_neg (fun hand => hc hand.1), ih ht]

/-- Splitting a prefixed record at its first `=` recovers key and value when
the key holds no `=`. -/
theorem splitFirstEq_append (k v : Str) (hk : '=' ∉ k) :
    splitFirstEq (k ++ '=' :: v) = some (k, v) := by
  induction k with
  | nil => simp [splitFirstEq]
  | cons c t ih =>
    have h' : ¬ ('=' = c) ∧ '=' ∉ t := by simpa [not_or] using hk
    simp only [List.cons_append, splitFirstEq]
    rw [if_neg (fun hc => h'.1 hc.symm)]
    simp only [List.append_eq]
    rw [ih h'.2]
    rfl

/-- `trim_end` after appending the final `\n` leaves a serialized record
intact when the value has no trailing whitespace. -/
theorem trimRight_record (k v : Str)
    (hlast : v.getLast?.all (fun c => !rustIsWhitespace c) = true) :
    trimRight (k ++ ['='] ++ v ++ ['\n']) = k ++ ['='] ++ v := by
  have hnl : rustIsWhitespace '\n' = true := by decide
  have heq : rustIsWhitespace '=' = false := by decide
  unfold trimRight
  simp only [List.reverse_append, List.reverse_cons, List.reverse_nil, List.nil_append,
    List.append_assoc, List.cons_append, List.singleton_append]
  rw [List.dropWhile_cons]
  simp only [hnl, if_true]
  have hdw : List.dropWhile rustIsWhitespace (v.reverse ++ '=' :: k.reverse) =
      v.reverse ++ '=' :: k.reverse := by
    cases hv : v.reverse with
    | nil =>
      rw [List.nil_append, List.dropWhile_cons]
      simp [heq]
    | cons c t =>
      have hlastc : v.getLast? = some c := by
        rw [← List.head?_reverse, hv]
        rfl
      have hws : rustIsWhitespace c = false := by
        rw [hlastc] at hlast
        simpa using hlast
      rw [List.cons_append, List.dropWhile_cons]
      simp [hws]
  rw [hdw]
  simp [List.reverse_append]

/-- C4 counterexample: the block consisting of the single record `FOO`
(no `=`, non-empty) makes the whole block's processing panic
(`collect_tuple().unwrap()` on one element, main.rs line 121): the record is
not merely dropped. -/
theorem parse_no_eq_cx : parseEnvBlock ['F', 'O', 'O'] = none := by decide

/-- C4 amended: a non-empty record with no `=` separator makes the whole
block's parse panic (it is not dropped), while a record with an empty key and
an `=` (such as `=v`) is inserted into the mapping under the empty key (it is
not dropped either); only empty records are skipped. -/
theorem parse_record_behavior :
    (∀ ev line, line ∈ splitCRLF ev → line ≠ [] → '=' ∉ line → parseEnvBlock ev = none) ∧
    parseEnvBlock ['=', 'v'] = some [([], ['v'])] := by
  constructor
  · intro ev line hm hne hneq
    unfold parseEnvBlock
    exact parseLines_of_bad_line _ _ hm hne (splitFirstEq_of_not_mem _ hneq) []
  · decide

/-- C4 witness: the amended theorem applied to the block `A=1\r\nX`, whose
second record `X` has no `=`. -/
theorem parse_record_behavior_witness :
    parseEnvBlock ['A', '=', '1', '\r', '\n', 'X'] = none :=
  parse_record_behavior.1 ['A', '=', '1', '\r', '\n', 'X'] ['X']
    (by decide) (by decide) (by decide)

/-- C6 counterexample: two mappings meeting the claim's preconditions (keys
without `=`, keys and values free of line-terminator bytes) that do not
round-trip. The two-entry mapping `A=1, B=2` collapses into one record — the
diff serializer joins with `\n` while the block parser splits on `\r\n` —
and the single entry `A=1<VT>` (vertical tab U+000B, not a line terminator)
loses its trailing character to `trim_end`, which strips every Unicode
whitespace. -/
theorem roundtrip_cx :
    parseEnvBlock (serializeDiff [(['A'], ['1']), (['B'], ['2'])]) ≠
      some [(['A'], ['1']), (['B'], ['2'])] ∧
    parseEnvBlock (serializeDiff [(['A'], ['1', '\x0B'])]) ≠
      some [(['A'], ['1', '\x0B'])] := by decide

/-- C6 amended: parse after serialize is the identity only for mappings with
at most one entry — the empty mapping, and a single pair whose key holds no
`=` , whose key and value hold no `\r`, and whose value does not end in a
Unicode-whitespace character (`trim_end` strips it, as the counterexample's
second part shows). Mappings with two or more entries fail, as the
counterexample's first part shows. -/
theorem roundtrip_small (k v : Str) (hk : '=' ∉ k) (hkr : '\r' ∉ k) (hvr : '\r' ∉ v)
    (hlast : v.getLast?.all (fun c => !rustIsWhitespace c) = true) :
    parseEnvBlock (serializeDiff [(k, v)]) = some [(k, v)] ∧
    parseEnvBlock (serializeDiff []) = some [] := by
  refine ⟨?_, by decide⟩
  have hser : serializeDiff [(k, v)] = k ++ ['='] ++ v := by
    unfold serializeDiff
    simp only [List.foldl_cons, List.foldl_nil, List.nil_append]
    exact trimRight_record k v hlast
  have hnomem : '\r' ∉ k ++ ['='] ++ v := by
    simp only [List.append_assoc, List.mem_append, List.mem_cons, not_or]
    exact ⟨hkr, by simp [hvr]⟩
  rw [hser]
  unfold parseEnvBlock
  rw [splitCRLF_of_no_cr _ hnomem]
  have hlen : (k ++ ['='] ++ v).length ≠ 0 := by simp
  simp only [parseLines, if_pos hlen]
  have : k ++ ['='] ++ v = k ++ '=' :: v := by simp
  rw [this, splitFirstEq_append k v hk]
  rfl

/-- C6 witness: the singleton mapping `K=1` round-trips. -/
theorem roundtrip_small_witness :
    parseEnvBlock (serializeDiff [(['K'], ['1'])]) = some [(['K'], ['1'])] ∧
    parseEnvBlock (serializeDiff []) = some [] :=
  roundtrip_small ['K'] ['1'] (by decide) (by decide) (by decide) (by decide)

/-- The error kinds the pipe-manager library returns through `io::Result`. -/
inductive IoErr where
  | notFound
  | tooLarge
  | notConnected
  | alreadyExists
deriving DecidableEq

/-- lib.rs `struct PipeServer`: the session's resource slots and configured
buffer limits. The live stream and the listener are modelled by occupancy of
their `Option` slots. -/
structure PipeServerSt where
  buffer : Option Unit
  connecting_server : Option Unit
  started_server : Bool
  out_buffer : Nat
  in_buffer : Nat
deriving DecidableEq

/-- `PipeServer::new`: no stream, no listener, default 65536-byte limits. -/
def pipeServerNew : PipeServerSt :=
  { buffer := none, connecting_server := none, started_server := false,
    out_buffer := 65536, in_buffer := 65536 }

/-- `PipeServer::write` (lib.rs lines 203–227): error `NotFound` when no
stream is held; otherwise the stream is taken out of the slot, the serialized
line plus `\n` is length-checked against `out_buffer` — an oversized line
returns the size error with the slot left empty (the early `return` skips the
give-back) — and only on success is the stream put back. The result pairs the
`io::Result` with the session after the call. -/
def pipeServerWrite (s : PipeServerSt) (line : Str) : Except IoErr Unit × PipeServerSt :=
  match s.buffer with
  | none => (Except.error IoErr.notFound, s)
  | some stream =>
    let s' := { s with buffer := none }
    if line.length + 1 > s.out_buffer then
      (Except.error IoErr.tooLarge, s')
    else
      (Except.ok (), { s' with buffer := some stream })

/-- lib.rs `struct PipeClient`. -/
structure PipeClientSt where
  buffer : Option Unit
  connected : Bool
deriving DecidableEq

/-- `PipeClient::write` (lib.rs lines 297–317): error `NotFound` when not
connected; otherwise the stream is taken (`none` models the `unwrap` panic on
an absent slot), the line plus `\n` is written with no size check of any
kind, and the stream is put back. -/
def pipeClientWrite (c : PipeClientSt) (_line : Str) :
    Option (Except IoErr Unit × PipeClientSt) :=
  if c.connected = false then some (Except.error IoErr.notFound, c)
  else
    match c.buffer with
    | none => none
    | some stream => some (Except.ok (), { c with buffer := some stream })

/-- `PipeServer::wait_ms` (lib.rs lines 162–171): error `NotConnected` when
no listener is armed; otherwise the listener is taken out and the OS wait
runs — `peer` tells whether a peer connects within the timeout. On a connect
the session becomes connected; on a timeout the OS call yields `Ok(None)` and
the code's second `.unwrap()` panics (`none`). -/
def pipeServerWaitMs (s : PipeServerSt) (peer : Bool) :
    Option (Except IoErr PipeServerSt) :=
  if s.connecting_server.isNone then some (Except.error IoErr.notConnected)
  else if peer then
    some (Except.ok { s with connecting_server := none, buffer := some () })
  else none

/-- `PipeServer::disconnect` (lib.rs lines 143–149): `self.buffer.take()`
followed by `.unwrap()` — a session holding no stream panics (`none`);
otherwise the stream is torn down and the listener re-armed. -/
def pipeServerDisconnect (s : PipeServerSt) : Option PipeServerSt :=
  match s.buffer with
  | none => none
  | some _ => some { s with buffer := none, connecting_server := some () }

/-- C5 counterexample: on a connected session with a 4-byte outbound limit,
writing a 10-character line fails with the size error, and the following
1-character write — well within the limit — fails with `NotFound` instead of
succeeding: the oversized write did not leave the transport usable. -/
theorem write_too_large_cx :
    (pipeServerWrite ⟨some (), none, true, 4, 65536⟩
        ['0', '1', '2', '3', '4', '5', '6', '7', '8', '9']).1 =
      Except.error IoErr.tooLarge ∧
    (pipeServerWrite
        (pipeServerWrite ⟨some (), none, true, 4, 65536⟩
          ['0', '1', '2', '3', '4', '5', '6', '7', '8', '9']).2 ['a']).1 =
      Except.error IoErr.notFound :=
  ⟨rfl, rfl⟩

/-- C5 amended: an oversized server-side write fails with the size error but
leaves the stream slot empty, so every subsequent write — however small —
fails with `NotFound`; and the client-side write applies no outbound size
check at all, succeeding for a line of any length. -/
theorem write_too_large_strands (s : PipeServerSt) (line next : Str)
    (hb : s.buffer = some ()) (hlen : s.out_buffer < line.length + 1) :
    (pipeServerWrite s line).1 = Except.error IoErr.tooLarge ∧
    (pipeServerWrite s line).2.buffer = none ∧
    (pipeServerWrite (pipeServerWrite s line).2 next).1 = Except.error IoErr.notFound ∧
    (∀ (c : PipeClientSt) (l : Str), c.connected = true → c.buffer = some () →
      pipeClientWrite c l = some (Except.ok (), c)) := by
  have h1 : pipeServerWrite s line =
      (Except.error IoErr.tooLarge, { s with buffer := none }) := by
    simp [pipeServerWrite, hb, hlen]
  refine ⟨by rw [h1], by rw [h1], by rw [h1]; rfl, ?_⟩
  intro c l hc hbuf
  obtain ⟨cb, cc⟩ := c
  simp only at hc hbuf
  subst hc
  subst hbuf
  rfl

/-- C5 witness: the amended theorem applied to a connected session with a
4-byte limit, a 10-character line and a 1-character follow-up. -/
theorem write_too_large_strands_witness :
    (pipeServerWrite ⟨some (), none, true, 4, 65536⟩
        ['a', 'b', 'c', 'd', 'e', 'f', 'g', 'h', 'i', 'j']).1 =
      Except.error IoErr.tooLarge ∧
    (pipeServerWrite ⟨some (), none, true, 4, 65536⟩
        ['a', 'b', 'c', 'd', 'e', 'f', 'g', 'h', 'i', 'j']).2.buffer = none ∧
    (pipeServerWrite
        (pipeServerWrite ⟨some (), none, true, 4, 65536⟩
          ['a', 'b', 'c', 'd', 'e', 'f', 'g', 'h', 'i', 'j']).2 ['z']).1 =
      Except.error IoErr.notFound ∧
    (∀ (c : PipeClientSt) (l : Str), c.connected = true → c.buffer = some () →
      pipeClientWrite c l = some (Except.ok (), c)) :=
  write_too_large_strands ⟨some (), none, true, 4, 65536⟩
    ['a', 'b', 'c', 'd', 'e', 'f', 'g', 'h', 'i', 'j'] ['z'] rfl (by decide)

/-- C8 counterexample: a started, listening session on which the timeout
elapses with no peer: `wait_ms` panics (the double `unwrap` hits `Ok(None)`,
lib.rs line 167) instead of returning a timeout condition, and the listener
had already been taken from the session. -/
theorem wait_ms_timeout_cx :
    pipeServerWaitMs ⟨none, some (), true, 65536, 65536⟩ false = none := rfl

/-- C8 amended: on a session holding a listener, `wait_ms` transitions to the
connected state when a peer arrives within the bound, but when the timeout
elapses with no peer it panics — `none`, a process abort — rather than
returning a timeout condition distinguishable from a hard error. -/
theorem wait_ms_behavior (s : PipeServerSt) (h : s.connecting_server = some ()) :
    pipeServerWaitMs s true =
      some (Except.ok { s with connecting_server := none, buffer := some () }) ∧
    pipeServerWaitMs s false = none := by
  constructor <;> simp [pipeServerWaitMs, h]

/-- C8 witness: the amended theorem applied to a freshly started default
session. -/
theorem wait_ms_behavior_witness :
    pipeServerWaitMs ⟨none, some (), true, 65536, 65536⟩ true =
      some (Except.ok { (⟨none, some (), true, 65536, 65536⟩ : PipeServerSt) with
        connecting_server := none, buffer := some () }) ∧
    pipeServerWaitMs ⟨none, some (), true, 65536, 65536⟩ false = none :=
  wait_ms_behavior ⟨none, some (), true, 65536, 65536⟩ rfl

/-- The Windows pipe-namespace prefix `\\.\pipe\`. -/
def pipeNamespacePrefix : Str :=
  ['\\', '\\', '.', '\\', 'p', 'i', 'p', 'e', '\\']

/-- lib.rs `check_pipe_name_syntax` (lines 322–332): prepend the namespace
prefix unless the name already starts with it. -/
def checkPipeNameSyntax (name : Str) : Str :=
  if pipeNamespacePrefix.isPrefixOf name then name
  else pipeNamespacePrefix ++ name

/-- C9: endpoint-name normalization is idempotent — every output starts with
the pipe-namespace prefix, an input already carrying the prefix is returned
unchanged, and hence normalizing twice equals normalizing once. -/
theorem checkPipeName_idem (x : Str) :
    checkPipeNameSyntax (checkPipeNameSyntax x) = checkPipeNameSyntax x ∧
    pipeNamespacePrefix.isPrefixOf (checkPipeNameSyntax x) = true ∧
    (pipeNamespacePrefix.isPrefixOf x = true → checkPipeNameSyntax x = x) := by
  have hpre : ∀ y : Str, pipeNamespacePrefix.isPrefixOf (pipeNamespacePrefix ++ y) = true := by
    intro y
    rw [List.isPrefixOf_iff_prefix]
    exact List.prefix_append _ _
  by_cases h : pipeNamespacePrefix.isPrefixOf x
  · refine ⟨?_, ?_, fun _ => ?_⟩ <;> simp [checkPipeNameSyntax, h]
  · refine ⟨?_, ?_, fun hx => absurd hx h⟩
    · simp [checkPipeNameSyntax, h, hpre x]
    · simp [checkPipeNameSyntax, h, hpre x]

/-- C9 witness: normalizing the seeded name `envsaver1` (no prefix) and the
already-normalized result. -/
theorem checkPipeName_idem_witness :
    checkPipeNameSyntax (checkPipeNameSyntax ['e', 'n', 'v', '1']) =
      checkPipeNameSyntax ['e', 'n', 'v', '1'] ∧
    pipeNamespacePrefix.isPrefixOf (checkPipeNameSyntax ['e', 'n', 'v', '1']) = true ∧
    (pipeNamespacePrefix.isPrefixOf ['e', 'n', 'v', '1'] = true →
      checkPipeNameSyntax ['e', 'n', 'v', '1'] = ['e', 'n', 'v', '1']) :=
  checkPipeName_idem ['e', 'n', 'v', '1']

/-- C10: `disconnect` on a session that holds no connected stream — a fresh
session before any successful wait, or again right after a disconnect —
panics (`self.buffer.take().unwrap()`, lib.rs line 145) rather than returning
an error value; its success is only guaranteed in the connected state. -/
theorem disconnect_unconnected_panics (s : PipeServerSt) (h : s.buffer = none) :
    pipeServerDisconnect s = none ∧
    (∀ s₁ s₂ : PipeServerSt, pipeServerDisconnect s₁ = some s₂ →
      pipeServerDisconnect s₂ = none) ∧
    (∀ s₃ : PipeServerSt, s₃.buffer = some () → (pipeServerDisconnect s₃).isSome = true) := by
  refine ⟨?_, ?_, ?_⟩
  · simp [pipeServerDisconnect, h]
  · intro s₁ s₂ hd
    unfold pipeServerDisconnect at hd ⊢
    cases hb : s₁.buffer with
    | none => rw [hb] at hd; cases hd
    | some u =>
      rw [hb] at hd
      simp only [Option.some.injEq] at hd
      subst hd
      rfl
  · intro s₃ hb
    simp [pipeServerDisconnect, hb]

/-- C10 witness: a freshly constructed session (`PipeServer::new`, before any
wait) panics on `disconnect`. -/
theorem disconnect_unconnected_panics_witness :
    pipeServerDisconnect pipeServerNew = none ∧
    (∀ s₁ s₂ : PipeServerSt, pipeServerDisconnect s₁ = some s₂ →
      pipeServerDisconnect s₂ = none) ∧
    (∀ s₃ : PipeServerSt, s₃.buffer = some () → (pipeServerDisconnect s₃).isSome = true) :=
  disconnect_unconnected_panics pipeServerNew rfl

end EnvSaver
